import Mathlib

/-!
Shallow embedding of the DNS message codec in `pydns.py` (classes `DNSHeader`,
`DNSName`, `DNSQuestion`, `DNSResource`, `DNSPacket`).

Wire buffers (`bytes` values) are modelled as `List Nat` (one entry per octet).
Python exceptions are modelled by the `Err` type below, one constructor per
distinct raise site / exception class; fallible code returns `Except Err _`.
The unbounded `while` loop of `DNSName.from_pack` is modelled with explicit
fuel: running out of fuel (`Err.outOfFuel`) corresponds to the Python loop
still running after that many iterations.
-/

/-- Exceptions the Python code can raise, one constructor per distinct
raise site / exception class. -/
inductive Err where
  /-- `SyntaxError("Labels can't be longer then 65 chars")` in `DNSName.from_name`. -/
  | labelTooLong
  /-- `SyntaxError("DNS name pointer outside packet")` in `DNSName.from_pack`. -/
  | malformedName
  /-- `SyntaxError("Type is A, length isn't 4 bytes")` in `DNSResource.from_pack`. -/
  | malformedRecord
  /-- `SyntaxError` raised by the various `__init__` argument checks. -/
  | invalidInit
  /-- `struct.error`: pack/unpack with too few bytes or an out-of-range field. -/
  | structError
  /-- `TypeError`: `ord()` applied to an empty slice (read past the buffer end). -/
  | typeError
  /-- `IndexError`: `name[-1]` on an empty string or list index out of range. -/
  | indexError
  /-- `ValueError("Packet is truncated, use TCP")` in `DNSPacket.from_pack`. -/
  | valueTruncated
  /-- Fuel exhausted: the Python loop is still running after that many iterations. -/
  | outOfFuel
deriving Repr, DecidableEq

/-- Python slice `xs[i : i + n]`: truncating, never out of range. -/
def listSlice (xs : List Nat) (i n : Nat) : List Nat :=
  (xs.drop i).take n

/-- Python truthiness of the `pack_size` variable (`if not pack_size`):
`None` and `0` are falsy. -/
def psFalsy : Option Nat → Bool
  | none => true
  | some 0 => true
  | some (_ + 1) => false

namespace DNSName

/-- Loop body of `DNSName.from_pack` (the `while label_size > 0` loop), with
explicit fuel.  State: current read position `loc`, the `pack_size` variable
(`ps`, `none` = Python `None`), and the accumulated label list `acc` (`retl`).
`pack[loc]? = none` models `ord` of an empty slice raising `TypeError`. -/
def fromPackAux (pack : List Nat) (sloc : Nat) :
    Nat → Nat → Option Nat → List (List Nat) → Except Err (Nat × List (List Nat))
  | 0, _, _, _ => .error .outOfFuel
  | fuel + 1, loc, ps, acc =>
    match pack[loc]? with
    | none => .error .typeError
    | some b =>
      if b &&& 192 = 192 then
        -- octet is a name pointer
        let ps1 := if psFalsy ps then some (loc - sloc + 2) else ps
        match pack[loc + 1]? with
        | none => .error .typeError
        | some b2 =>
          let tgt := ((b <<< 8) ||| b2) &&& 16383
          if pack.length ≤ tgt then .error .malformedName
          else
            let ls := pack.getD tgt 0
            let lab := listSlice pack (tgt + 1) ls
            if ls = 0 then
              .ok ((if psFalsy ps1 then tgt + 1 - sloc else ps1.getD 0), acc ++ [lab])
            else
              fromPackAux pack sloc fuel (tgt + 1 + ls) ps1 (acc ++ [lab])
      else
        let lab := listSlice pack (loc + 1) b
        if b = 0 then
          .ok ((if psFalsy ps then loc + 1 - sloc else ps.getD 0), acc ++ [lab])
        else
          fromPackAux pack sloc fuel (loc + 1 + b) ps (acc ++ [lab])

/-- `DNSName.from_pack(pack, sloc)`: returns `(pack_size, retl)`. -/
def from_pack (pack : List Nat) (sloc : Nat) (fuel : Nat) :
    Except Err (Nat × List (List Nat)) :=
  fromPackAux pack sloc fuel sloc none []

/-- Specification-side mirror of the decode walk: the buffer offset of the
first compression-pointer byte encountered when reading length-prefixed
labels from `loc`, or `none` when the walk reaches the terminating zero
label, runs off the buffer, or runs out of fuel first.  Used to state the
consumed-byte-count claim independently of the `pack_size` bookkeeping
inside `fromPackAux`. -/
def firstPtr (pack : List Nat) : Nat → Nat → Option Nat
  | 0, _ => none
  | fuel + 1, loc =>
    match pack[loc]? with
    | none => none
    | some b =>
      if b &&& 192 = 192 then some loc
      else if b = 0 then none
      else firstPtr pack fuel (loc + 1 + b)

/-- The uncompressed wire form of a label sequence: a length byte and the
label bytes for each label, then the terminating zero label.  (This is what
`get_oct_name` produces when every label is shorter than 128 octets and the
sequence ends with the root label.) -/
def labelWire (L : List (List Nat)) : List Nat :=
  (L.map fun l => l.length :: l).flatten ++ [0]

/-- Python `name.split(".")` on a byte/character list (46 = `"."`). -/
def splitOnDot : List Nat → List (List Nat)
  | [] => [[]]
  | c :: rest =>
    if c = 46 then [] :: splitOnDot rest
    else
      match splitOnDot rest with
      | [] => [[c]]
      | l :: ls => (c :: l) :: ls

/-- Label-length check loop of `DNSName.from_name`. -/
def checkLabels : List (List Nat) → Except Err (List (List Nat))
  | [] => .ok []
  | l :: ls =>
    if 65 < l.length then .error .labelTooLong
    else
      match checkLabels ls with
      | .error e => .error e
      | .ok r => .ok (l :: r)

/-- `DNSName.from_name(name)`: append a trailing dot when missing
(`name[-1]` raises `IndexError` on the empty string), split on dots, check
each label against the 65-octet limit. -/
def from_name (s : List Nat) : Except Err (List (List Nat)) :=
  match s.getLast? with
  | none => .error .indexError
  | some c =>
    checkLabels (splitOnDot (if c ≠ 46 then s ++ [46] else s))

/-- The dotted string actually split by `from_name`: the input with a
trailing dot appended when missing. -/
def withDot (s : List Nat) : List Nat :=
  if s.getLast? = some 46 then s else s ++ [46]

/-- Python `chr(n).encode()` (UTF-8) for `n < 2048`. -/
def chrEncode (n : Nat) : List Nat :=
  if n < 128 then [n] else [192 ||| (n >>> 6), 128 ||| (n &&& 63)]

/-- `DNSName.get_oct_name`: length byte then label bytes, for every label. -/
def get_oct_name (name_array : List (List Nat)) : List Nat :=
  (name_array.map (fun l => chrEncode l.length ++ l)).flatten

/-- `DNSName.get_name`: `b".".join(self.name_array)`. -/
def get_name : List (List Nat) → List Nat
  | [] => []
  | [l] => l
  | l :: l2 :: ls => l ++ 46 :: get_name (l2 :: ls)

/-- `DNSName.str_me`: the dotted name with the final dot removed, as text. -/
def str_me (name_array : List (List Nat)) : List Nat :=
  (get_name name_array).dropLast

end DNSName

/-- Big-endian 16-bit read at `i` (`struct.unpack` of an `H` field). -/
def read16 (p : List Nat) (i : Nat) : Nat :=
  p.getD i 0 * 256 + p.getD (i + 1) 0

/-- Big-endian 32-bit read at `i` (`struct.unpack` of an `L` field). -/
def read32 (p : List Nat) (i : Nat) : Nat :=
  ((p.getD i 0 * 256 + p.getD (i + 1) 0) * 256 + p.getD (i + 2) 0) * 256
    + p.getD (i + 3) 0

/-- Big-endian 16-bit bytes of `n` (`struct.pack` of an `H` field; `struct`
raises for `n ≥ 2 ^ 16`, so callers are used with in-range values). -/
def pack16 (n : Nat) : List Nat := [n / 256, n % 256]

/-- Fields of `DNSHeader` (class defaults are realised in `init`,
`set_from_pack` sets every field). -/
structure DNSHeader where
  id : Nat
  notquery : Bool
  opcode : Nat
  AA : Bool
  TC : Bool
  RD : Bool
  RA : Bool
  Z : Nat
  r_code : Nat
  qd_count : Nat
  an_count : Nat
  ns_count : Nat
  ar_count : Nat
deriving Repr, DecidableEq

namespace DNSHeader

/-- `DNSHeader.__init__` with `header_pack=None`: class-level defaults, a
random 16-bit id (modelled as the parameter `id`, with `id < 2 ^ 16` supplied
as a hypothesis where needed, per `getrandbits(16)`), and `RD = True`. -/
def init (id : Nat) : DNSHeader :=
  { id := id, notquery := false, opcode := 0, AA := false, TC := false,
    RD := true, RA := false, Z := 0, r_code := 0,
    qd_count := 0, an_count := 0, ns_count := 0, ar_count := 0 }

/-- `DNSHeader.get_pack`: `struct.pack("!HBBHHHH", id, bits16_23, bits24_31,
qd_count, an_count, ns_count, ar_count)`. -/
def get_pack (h : DNSHeader) : List Nat :=
  let bits16_23 :=
    (h.notquery.toNat <<< 7) ||| ((h.opcode &&& 15) <<< 3) |||
      (h.AA.toNat <<< 2) ||| (h.TC.toNat <<< 1) ||| h.RD.toNat
  let bits24_31 := (h.RA.toNat <<< 7) ||| ((h.Z &&& 7) <<< 4) ||| h.r_code
  pack16 h.id ++ [bits16_23, bits24_31] ++ pack16 h.qd_count ++
    pack16 h.an_count ++ pack16 h.ns_count ++ pack16 h.ar_count

/-- `DNSHeader.set_from_pack`: unpack the first 12 bytes (`struct.error`
when fewer are available) and unpack the two flag bytes bit by bit. -/
def set_from_pack (p : List Nat) : Except Err DNSHeader :=
  if p.length < 12 then .error .structError
  else
    let b2 := p.getD 2 0
    let b3 := p.getD 3 0
    .ok
      { id := read16 p 0
        notquery := (b2 &&& (1 <<< 7)) != 0
        opcode := (b2 &&& (15 <<< 3)) >>> 3
        AA := (b2 &&& (1 <<< 2)) != 0
        TC := (b2 &&& (1 <<< 1)) != 0
        RD := (b2 &&& 1) != 0
        RA := (b3 &&& (1 <<< 7)) != 0
        Z := (b3 &&& (7 <<< 4)) >>> 4
        r_code := b3 &&& 15
        qd_count := read16 p 4
        an_count := read16 p 6
        ns_count := read16 p 8
        ar_count := read16 p 10 }

end DNSHeader

/-- A `DNSName` object as stored in questions/resources: its `name_array`
and, when it was built from a packet, the span `s_pack_end - s_pack_start`. -/
structure DNSNameObj where
  name_array : List (List Nat)
  span : Option Nat
deriving Repr, DecidableEq

/-- `DNSName.get_size`: the stored packet span when decoded from a packet,
otherwise the length of the octet form. -/
def DNSNameObj.get_size (n : DNSNameObj) : Nat :=
  match n.span with
  | some sz => sz
  | none => (DNSName.get_oct_name n.name_array).length

structure DNSQuestion where
  q_name : DNSNameObj
  q_type : Nat
  q_class : Nat
deriving Repr, DecidableEq

namespace DNSQuestion

/-- `DNSQuestion.get_size`: name size plus `Struct("!HH").size`. -/
def get_size (q : DNSQuestion) : Nat := q.q_name.get_size + 4

/-- `DNSQuestion.__init__` from a dotted name (`qclass` defaults to 1). -/
def mk_query (name : List Nat) (qtype : Nat) (qclass : Nat) :
    Except Err DNSQuestion :=
  match DNSName.from_name name with
  | .error e => .error e
  | .ok arr =>
    .ok { q_name := { name_array := arr, span := none },
          q_type := qtype, q_class := qclass }

/-- `DNSQuestion.from_pack`: decode the name at `index`, then
`struct.unpack_from("!HH", pack, index + name_size)`. -/
def from_pack (pack : List Nat) (index fuel : Nat) : Except Err DNSQuestion :=
  match DNSName.from_pack pack index fuel with
  | .error e => .error e
  | .ok (sz, arr) =>
    let i := index + sz
    if pack.length < i + 4 then .error .structError
    else
      .ok { q_name := { name_array := arr, span := some sz },
            q_type := read16 pack i, q_class := read16 pack (i + 2) }

end DNSQuestion

/-- The `r_data` attribute of a `DNSResource`: the class default `None`,
a raw byte slice (type A), or a decoded `DNSName` (types NS and CNAME). -/
inductive RData where
  | none
  | bytes (bs : List Nat)
  | name (n : DNSNameObj)
deriving Repr, DecidableEq

structure DNSResource where
  a_name : DNSNameObj
  a_type : Nat
  a_class : Nat
  a_ttl : Nat
  r_d_length : Nat
  r_data : RData
deriving Repr, DecidableEq

namespace DNSResource

/-- `DNSResource.get_size`: name size plus `Struct("!HHLH").size` plus the
declared rdata length (whether or not rdata bytes were stored). -/
def get_size (r : DNSResource) : Nat :=
  r.a_name.get_size + 10 + r.r_d_length

/-- `DNSResource.from_pack`: name, then
`struct.unpack_from("!HHLH", pack, index)`, then the type-dependent rdata
handling (type 1 slices and checks the length, types 2 and 5 decode a name,
any other type leaves `r_data` as the class default `None`). -/
def from_pack (pack : List Nat) (index fuel : Nat) : Except Err DNSResource :=
  match DNSName.from_pack pack index fuel with
  | .error e => .error e
  | .ok (sz, arr) =>
    let i := index + sz
    if pack.length < i + 10 then .error .structError
    else
      let t := read16 pack i
      let c := read16 pack (i + 2)
      let ttl := read32 pack (i + 4)
      let rdl := read16 pack (i + 8)
      if t = 1 then
        if rdl ≠ 4 then .error .malformedRecord
        else
          .ok { a_name := { name_array := arr, span := some sz },
                a_type := t, a_class := c, a_ttl := ttl, r_d_length := rdl,
                r_data := .bytes (listSlice pack (i + 10) rdl) }
      else if t = 2 ∨ t = 5 then
        match DNSName.from_pack pack (i + 10) fuel with
        | .error e => .error e
        | .ok (sz2, arr2) =>
          .ok { a_name := { name_array := arr, span := some sz },
                a_type := t, a_class := c, a_ttl := ttl, r_d_length := rdl,
                r_data := .name { name_array := arr2, span := some sz2 } }
      else
        .ok { a_name := { name_array := arr, span := some sz },
              a_type := t, a_class := c, a_ttl := ttl, r_d_length := rdl,
              r_data := .none }

/-- `socket.inet_ntoa`: dotted decimal text of exactly 4 bytes (raises
otherwise; `TypeError` when the argument is not a bytes object at all). -/
def inet_ntoa : RData → Except Err String
  | .bytes bs =>
    if bs.length = 4 then
      .ok (toString (bs.getD 0 0) ++ "." ++ toString (bs.getD 1 0) ++ "." ++
        toString (bs.getD 2 0) ++ "." ++ toString (bs.getD 3 0))
    else .error .structError
  | _ => .error .typeError

/-- `r_data.str_me()` for the NS/CNAME branches (`AttributeError`, modelled
as `typeError`, when `r_data` is not a `DNSName`). -/
def rdataStr : RData → Except Err String
  | .name n => .ok (String.mk ((DNSName.str_me n.name_array).map Char.ofNat))
  | _ => .error .typeError

/-- `DNSResource.str_me`: the four display branches. -/
def str_me (r : DNSResource) : Except Err String :=
  let host := String.mk ((DNSName.str_me r.a_name.name_array).map Char.ofNat)
  if r.a_type = 1 then
    if r.r_d_length = 4 then
      match inet_ntoa r.r_data with
      | .error e => .error e
      | .ok ip => .ok ("Host " ++ host ++ " | A: " ++ ip ++ " | " ++ toString r.a_ttl)
    else .ok "Badly formed A type response"
  else if r.a_type = 2 then
    match rdataStr r.r_data with
    | .error e => .error e
    | .ok s => .ok ("Host " ++ host ++ " | NS: " ++ s ++ " | " ++ toString r.a_ttl)
  else if r.a_type = 5 then
    match rdataStr r.r_data with
    | .error e => .error e
    | .ok s => .ok ("Host " ++ host ++ " | CNAME: " ++ s ++ " | " ++ toString r.a_ttl)
  else
    .ok ("Resource type >" ++ toString r.a_type ++ "< not supported")

end DNSResource

structure DNSPacket where
  header : DNSHeader
  questions : List DNSQuestion
  answers : List DNSResource
  authority : List DNSResource
  additional : List DNSResource
deriving Repr, DecidableEq

namespace DNSPacket

/-- `DNSPacket.add_q(name, q_type)`: append a question built from `name`
(class defaults: type 1, class 1) and increment `header.qd_count`. -/
def add_q (m : DNSPacket) (name : List Nat) (q_type : Nat) :
    Except Err DNSPacket :=
  match DNSQuestion.mk_query name q_type 1 with
  | .error e => .error e
  | .ok q =>
    .ok { m with
          questions := m.questions ++ [q],
          header := { m.header with qd_count := m.header.qd_count + 1 } }

/-- Question-section loop of `DNSPacket.from_pack`:
`for i in range(count): questions.append(...); loc += questions[i].get_size()`.
`rem` counts iterations left, `i` is the Python loop index; the list starts as
`self.questions` (which `from_pack` appends to, it never clears it). -/
def parseQLoop (pack : List Nat) (fuel : Nat) :
    Nat → Nat → List DNSQuestion → Nat → Except Err (List DNSQuestion × Nat)
  | 0, _, qs, loc => .ok (qs, loc)
  | rem + 1, i, qs, loc =>
    match DNSQuestion.from_pack pack loc fuel with
    | .error e => .error e
    | .ok q =>
      let qs1 := qs ++ [q]
      match qs1[i]? with
      | none => .error .indexError
      | some qi => parseQLoop pack fuel rem (i + 1) qs1 (loc + qi.get_size)

/-- Resource-section loop of `DNSPacket.from_pack` (used for the answer,
authority and additional sections). -/
def parseRLoop (pack : List Nat) (fuel : Nat) :
    Nat → Nat → List DNSResource → Nat → Except Err (List DNSResource × Nat)
  | 0, _, rs, loc => .ok (rs, loc)
  | rem + 1, i, rs, loc =>
    match DNSResource.from_pack pack loc fuel with
    | .error e => .error e
    | .ok r =>
      let rs1 := rs ++ [r]
      match rs1[i]? with
      | none => .error .indexError
      | some ri => parseRLoop pack fuel rem (i + 1) rs1 (loc + ri.get_size)

/-- `DNSPacket.from_pack`: decode the header in place, raise
`ValueError("Packet is truncated, use TCP")` when `TC` is set, then walk the
four sections with a single cursor starting after the 12 header bytes,
appending to the packet's existing section lists. -/
def from_pack (m : DNSPacket) (pack : List Nat) (fuel : Nat) :
    Except Err DNSPacket :=
  match DNSHeader.set_from_pack pack with
  | .error e => .error e
  | .ok h =>
    if h.TC then .error .valueTruncated
    else
      match parseQLoop pack fuel h.qd_count 0 m.questions 12 with
      | .error e => .error e
      | .ok (qs, loc1) =>
        match parseRLoop pack fuel h.an_count 0 m.answers loc1 with
        | .error e => .error e
        | .ok (ans, loc2) =>
          match parseRLoop pack fuel h.ns_count 0 m.authority loc2 with
          | .error e => .error e
          | .ok (auth, loc3) =>
            match parseRLoop pack fuel h.ar_count 0 m.additional loc3 with
            | .error e => .error e
            | .ok (addi, _) =>
              .ok { header := h, questions := qs, answers := ans,
                    authority := auth, additional := addi }

/-- A newly constructed `DNSPacket` (per-instance view of the class-level
defaults): a default header and four empty section lists. -/
def fresh (id : Nat) : DNSPacket :=
  { header := DNSHeader.init id, questions := [], answers := [],
    authority := [], additional := [] }

end DNSPacket

/-! ### Concrete fixtures used by counterexamples and witnesses -/

/-- The question "a" as `add_q` builds it (no packet span, type 1, class 1). -/
def qFixA : DNSQuestion :=
  { q_name := { name_array := [[97], []], span := none },
    q_type := 1, q_class := 1 }

/-- The question "b" as decoded from `bufOneQ` at offset 12 (span 3). -/
def qFixB : DNSQuestion :=
  { q_name := { name_array := [[98], []], span := some 3 },
    q_type := 1, q_class := 1 }

/-- The header decoded from the first 12 bytes of `bufOneQ`. -/
def hdrOneQ : DNSHeader :=
  { id := 0, notquery := false, opcode := 0, AA := false, TC := false,
    RD := false, RA := false, Z := 0, r_code := 0, qd_count := 1,
    an_count := 0, ns_count := 0, ar_count := 0 }

/-- A 19-byte wire buffer: a header declaring one question and no other
records, followed by the question "b" (type 1, class 1). -/
def bufOneQ : List Nat :=
  [0, 0, 0, 0, 0, 1, 0, 0, 0, 0, 0, 0, 1, 98, 0, 0, 1, 0, 1]

/-- A packet that already holds one question, with a matching count. -/
def mOneQ : DNSPacket :=
  { header :=
      { id := 7, notquery := false, opcode := 0, AA := false, TC := false,
        RD := true, RA := false, Z := 0, r_code := 0, qd_count := 1,
        an_count := 0, ns_count := 0, ar_count := 0 },
    questions := [qFixA], answers := [], authority := [], additional := [] }

/-- The packet produced by `add_q` on `DNSPacket.fresh 9` with name "a". -/
def mAfterAdd : DNSPacket :=
  { header :=
      { id := 9, notquery := false, opcode := 0, AA := false, TC := false,
        RD := true, RA := false, Z := 0, r_code := 0, qd_count := 1,
        an_count := 0, ns_count := 0, ar_count := 0 },
    questions := [qFixA], answers := [], authority := [], additional := [] }

/-- The packet produced by `from_pack` on a fresh packet and `bufOneQ`. -/
def mParsed : DNSPacket :=
  { header := hdrOneQ, questions := [qFixB], answers := [], authority := [],
    additional := [] }

example : DNSName.from_pack [1, 97, 0] 0 5 = .ok (3, [[97], []]) := rfl
example : DNSName.from_pack [192, 255] 0 5 = .error .malformedName := rfl
example : DNSName.from_pack [5] 0 3 = .error .typeError := rfl
example : DNSName.from_name [97, 98, 46, 99] = .ok [[97, 98], [99], []] := rfl
example :
    DNSName.get_oct_name [[97, 98], [99], []] = [2, 97, 98, 1, 99, 0] := rfl
example :
    DNSName.from_pack [2, 97, 98, 1, 99, 0] 0 4 = .ok (6, [[97, 98], [99], []]) := rfl
example : DNSName.from_pack [3, 97, 98, 99, 192, 0] 0 5 = .error .outOfFuel := rfl

/-! ### Bit-packing lemmas for the header flag bytes -/

lemma bits16_eq (q a t r : Bool) (op : Nat) (hop : op < 16) :
    (q.toNat <<< 7) ||| ((op &&& 15) <<< 3) ||| (a.toNat <<< 2) |||
      (t.toNat <<< 1) ||| r.toNat =
    128 * q.toNat + 8 * op + 4 * a.toNat + 2 * t.toNat + r.toNat := by
  cases q <;> cases a <;> cases t <;> cases r <;> interval_cases op <;> rfl

lemma bits24_eq (ra : Bool) (z rc : Nat) (hz : z < 8) (hrc : rc < 16) :
    (ra.toNat <<< 7) ||| ((z &&& 7) <<< 4) ||| rc =
    128 * ra.toNat + 16 * z + rc := by
  cases ra <;> interval_cases z <;> interval_cases rc <;> rfl

lemma extractB2 (q a t r : Bool) (op b : Nat) (hop : op < 16)
    (hb : b = 128 * q.toNat + 8 * op + 4 * a.toNat + 2 * t.toNat + r.toNat) :
    ((b &&& (1 <<< 7)) != 0) = q ∧ (b &&& (15 <<< 3)) >>> 3 = op ∧
    ((b &&& (1 <<< 2)) != 0) = a ∧ ((b &&& (1 <<< 1)) != 0) = t ∧
    ((b &&& 1) != 0) = r := by
  subst hb
  cases q <;> cases a <;> cases t <;> cases r <;> interval_cases op <;>
    exact ⟨rfl, rfl, rfl, rfl, rfl⟩

lemma extractB3 (ra : Bool) (z rc b : Nat) (hz : z < 8) (hrc : rc < 16)
    (hb : b = 128 * ra.toNat + 16 * z + rc) :
    ((b &&& (1 <<< 7)) != 0) = ra ∧ (b &&& (7 <<< 4)) >>> 4 = z ∧
    b &&& 15 = rc := by
  subst hb
  cases ra <;> interval_cases z <;> interval_cases rc <;> exact ⟨rfl, rfl, rfl⟩

lemma get_pack_eq (h : DNSHeader) (hop : h.opcode < 16) (hz : h.Z < 8)
    (hrc : h.r_code < 16) :
    h.get_pack =
      [h.id / 256, h.id % 256,
       128 * h.notquery.toNat + 8 * h.opcode + 4 * h.AA.toNat +
         2 * h.TC.toNat + h.RD.toNat,
       128 * h.RA.toNat + 16 * h.Z + h.r_code,
       h.qd_count / 256, h.qd_count % 256, h.an_count / 256, h.an_count % 256,
       h.ns_count / 256, h.ns_count % 256, h.ar_count / 256,
       h.ar_count % 256] := by
  simp only [DNSHeader.get_pack, pack16, List.cons_append, List.nil_append]
  rw [bits16_eq _ _ _ _ _ hop, bits24_eq _ _ _ hz hrc]

/-- Definitional evaluation of `set_from_pack` on an explicit 12-byte buffer. -/
lemma set_from_pack_literal (x0 x1 b2 b3 x4 x5 x6 x7 x8 x9 x10 x11 : Nat) :
    DNSHeader.set_from_pack [x0, x1, b2, b3, x4, x5, x6, x7, x8, x9, x10, x11] =
      .ok { id := x0 * 256 + x1
            notquery := (b2 &&& (1 <<< 7)) != 0
            opcode := (b2 &&& (15 <<< 3)) >>> 3
            AA := (b2 &&& (1 <<< 2)) != 0
            TC := (b2 &&& (1 <<< 1)) != 0
            RD := (b2 &&& 1) != 0
            RA := (b3 &&& (1 <<< 7)) != 0
            Z := (b3 &&& (7 <<< 4)) >>> 4
            r_code := b3 &&& 15
            qd_count := x4 * 256 + x5
            an_count := x6 * 256 + x7
            ns_count := x8 * 256 + x9
            ar_count := x10 * 256 + x11 } := rfl

/-- C6: for every header with in-range fields (16-bit id and counts, 4-bit
opcode and response code, 3-bit Z, boolean flags), decoding the 12 bytes
produced by `DNSHeader.get_pack` with `DNSHeader.set_from_pack` reproduces the
header exactly; byte 2 is packed as `QR(1) OPCODE(4) AA(1) TC(1) RD(1)` and
byte 3 as `RA(1) Z(3) RCODE(4)`, with multi-byte integers big-endian. -/
theorem c6_header_roundtrip (h : DNSHeader) (hid : h.id < 65536)
    (hop : h.opcode < 16) (hz : h.Z < 8) (hrc : h.r_code < 16)
    (hqd : h.qd_count < 65536) (han : h.an_count < 65536)
    (hns : h.ns_count < 65536) (har : h.ar_count < 65536) :
    DNSHeader.set_from_pack h.get_pack = .ok h ∧
    h.get_pack.getD 2 0 =
      128 * h.notquery.toNat + 8 * h.opcode + 4 * h.AA.toNat +
        2 * h.TC.toNat + h.RD.toNat ∧
    h.get_pack.getD 3 0 = 128 * h.RA.toNat + 16 * h.Z + h.r_code := by
  rw [get_pack_eq h hop hz hrc, set_from_pack_literal]
  obtain ⟨e1, e2, e3, e4, e5⟩ :=
    extractB2 h.notquery h.AA h.TC h.RD h.opcode _ hop rfl
  obtain ⟨f1, f2, f3⟩ := extractB3 h.RA h.Z h.r_code _ hz hrc rfl
  refine ⟨?_, rfl, rfl⟩
  rw [e1, e2, e3, e4, e5, f1, f2, f3,
    show h.id / 256 * 256 + h.id % 256 = h.id by omega,
    show h.qd_count / 256 * 256 + h.qd_count % 256 = h.qd_count by omega,
    show h.an_count / 256 * 256 + h.an_count % 256 = h.an_count by omega,
    show h.ns_count / 256 * 256 + h.ns_count % 256 = h.ns_count by omega,
    show h.ar_count / 256 * 256 + h.ar_count % 256 = h.ar_count by omega]

/-- C6 witness: the round-trip at a concrete in-range header. -/
theorem c6_header_roundtrip_witness :
    DNSHeader.set_from_pack
        (DNSHeader.get_pack
          { id := 258, notquery := true, opcode := 5, AA := true, TC := false,
            RD := true, RA := true, Z := 3, r_code := 3, qd_count := 1,
            an_count := 2, ns_count := 3, ar_count := 65535 }) =
      .ok { id := 258, notquery := true, opcode := 5, AA := true, TC := false,
            RD := true, RA := true, Z := 3, r_code := 3, qd_count := 1,
            an_count := 2, ns_count := 3, ar_count := 65535 } :=
  (c6_header_roundtrip _ (by decide) (by decide) (by decide) (by decide)
    (by decide) (by decide) (by decide) (by decide)).1

/-- C10: a `DNSHeader` built without a wire buffer is an unsent query in the
fixed default state: query (not response), opcode 0, `AA`/`TC`/`RA` clear,
`RD` set, `Z` and response code 0, all four counts 0, and a transaction id in
`0 ... 65535` (the value of `getrandbits(16)`). -/
theorem c10_header_init (id : Nat) (hid : id < 65536) :
    (DNSHeader.init id).notquery = false ∧ (DNSHeader.init id).opcode = 0 ∧
    (DNSHeader.init id).AA = false ∧ (DNSHeader.init id).TC = false ∧
    (DNSHeader.init id).RA = false ∧ (DNSHeader.init id).RD = true ∧
    (DNSHeader.init id).Z = 0 ∧ (DNSHeader.init id).r_code = 0 ∧
    (DNSHeader.init id).qd_count = 0 ∧ (DNSHeader.init id).an_count = 0 ∧
    (DNSHeader.init id).ns_count = 0 ∧ (DNSHeader.init id).ar_count = 0 ∧
    (DNSHeader.init id).id < 65536 :=
  ⟨rfl, rfl, rfl, rfl, rfl, rfl, rfl, rfl, rfl, rfl, rfl, rfl, hid⟩

/-- C10 witness: the default state at a concrete id. -/
theorem c10_header_init_witness :
    (DNSHeader.init 77).notquery = false ∧ (DNSHeader.init 77).opcode = 0 ∧
    (DNSHeader.init 77).AA = false ∧ (DNSHeader.init 77).TC = false ∧
    (DNSHeader.init 77).RA = false ∧ (DNSHeader.init 77).RD = true ∧
    (DNSHeader.init 77).Z = 0 ∧ (DNSHeader.init 77).r_code = 0 ∧
    (DNSHeader.init 77).qd_count = 0 ∧ (DNSHeader.init 77).an_count = 0 ∧
    (DNSHeader.init 77).ns_count = 0 ∧ (DNSHeader.init 77).ar_count = 0 ∧
    (DNSHeader.init 77).id < 65536 :=
  c10_header_init 77 (by decide)

/-- C7: for every buffer of at least 12 bytes whose header has the `TC` bit
set (bit 1 of byte 2), `DNSPacket.from_pack` fails with the truncation
`ValueError` right after decoding the header, for every starting packet state
and every fuel, regardless of the bytes after the header. -/
theorem c7_truncated_short_circuit (pack : List Nat) (m : DNSPacket)
    (fuel : Nat) (hlen : 12 ≤ pack.length) (htc : pack.getD 2 0 &&& 2 ≠ 0) :
    DNSPacket.from_pack m pack fuel = .error .valueTruncated := by
  have hlt : ¬ pack.length < 12 := by omega
  have hTC : ((pack.getD 2 0 &&& (1 <<< 1)) != 0) = true := by
    have h2 : (1 <<< 1 : Nat) = 2 := rfl
    rw [h2, bne_iff_ne]
    exact htc
  unfold DNSPacket.from_pack DNSHeader.set_from_pack
  rw [if_neg hlt]
  dsimp only
  rw [if_pos hTC]

/-- C7 witness: a concrete 13-byte buffer with `TC` set. -/
theorem c7_truncated_short_circuit_witness :
    DNSPacket.from_pack (DNSPacket.fresh 0)
        [0, 0, 2, 0, 0, 9, 0, 0, 0, 0, 0, 0, 255] 5 =
      .error .valueTruncated :=
  c7_truncated_short_circuit _ _ _ (by decide) (by decide)

/-! ### C3: unguarded compression-pointer cycle -/

/-- In the buffer `[1, 97, 192, 0]` the pointer at offset 2 leads back to
offset 0, and the loop re-reaches offset 2 every iteration: the decode state
`loc = 2, pack_size = 4` recurs forever. -/
lemma c3_loop (f : Nat) :
    ∀ acc, DNSName.fromPackAux [1, 97, 192, 0] 0 f 2 (some 4) acc =
      .error .outOfFuel := by
  induction f with
  | zero => intro acc; rfl
  | succ f ih =>
    intro acc
    have step :
        DNSName.fromPackAux [1, 97, 192, 0] 0 (f + 1) 2 (some 4) acc =
          DNSName.fromPackAux [1, 97, 192, 0] 0 f 2 (some 4) (acc ++ [[97]]) :=
      rfl
    rw [step]
    exact ih _

/-- C3: name decoding is unguarded against compression-pointer cycles: on the
crafted buffer `[1, 97, 192, 0]` (label "a" followed by a pointer back to
offset 0) `DNSName.from_pack` never terminates — for every iteration bound it
is still looping, and in particular it never fails with `MalformedName`. -/
theorem c3_pointer_cycle_nonterminating (fuel : Nat) :
    DNSName.from_pack [1, 97, 192, 0] 0 fuel = .error .outOfFuel := by
  match fuel with
  | 0 => rfl
  | 1 => rfl
  | f + 2 =>
    have step :
        DNSName.from_pack [1, 97, 192, 0] 0 (f + 2) =
          DNSName.fromPackAux [1, 97, 192, 0] 0 f 2 (some 4) [[97], [97]] :=
      rfl
    rw [step]
    exact c3_loop f _

/-! ### C4: malformed pointers and reads past the buffer end -/

/-- C4 counterexample: on the 1-byte buffer `[5]` the label data runs past
the buffer end, and `DNSName.from_pack` fails with the `TypeError` from
`ord()` on an empty slice — not with `MalformedName` as the claim states. -/
theorem c4_counterexample :
    DNSName.from_pack [5] 0 3 = .error .typeError ∧
    Err.typeError ≠ Err.malformedName :=
  ⟨rfl, by decide⟩

/-- C4 (amended): whenever the decoder meets a compression pointer whose low
14 bits resolve to an offset at or past the buffer end it fails with
`MalformedName` — in particular `from_pack` on the 2-byte buffer
`[0xC0, 0xFF]` at offset 0 does; but when plain label data runs past the
buffer end the failure is the `TypeError` from `ord()` on an empty slice,
not `MalformedName`. -/
theorem c4_amended :
    (∀ (pack : List Nat) (sloc fuel loc : Nat) (ps : Option Nat)
        (acc : List (List Nat)) (b b2 : Nat),
        pack[loc]? = some b → b &&& 192 = 192 → pack[loc + 1]? = some b2 →
        pack.length ≤ ((b <<< 8) ||| b2) &&& 16383 →
        DNSName.fromPackAux pack sloc (fuel + 1) loc ps acc =
          .error .malformedName) ∧
    DNSName.from_pack [192, 255] 0 5 = .error .malformedName ∧
    DNSName.from_pack [5] 0 3 = .error .typeError := by
  refine ⟨?_, rfl, rfl⟩
  intro pack sloc fuel loc ps acc b b2 hb hptr hb2 hlen
  rw [DNSName.fromPackAux, hb]
  dsimp only
  rw [if_pos hptr, hb2]
  dsimp only
  rw [if_pos hlen]

/-- C4 witness: the general pointer-out-of-range case applied to the concrete
buffer `[0xC0, 0xFF]`. -/
theorem c4_amended_witness :
    DNSName.fromPackAux [192, 255] 0 5 0 none [] = .error .malformedName :=
  c4_amended.1 [192, 255] 0 4 0 none [] 192 255 rfl rfl rfl (by decide)

/-! ### C5: the label-length limit enforced by `from_name` -/

lemma checkLabels_ok (ls : List (List Nat)) (h : ∀ l ∈ ls, l.length ≤ 65) :
    DNSName.checkLabels ls = .ok ls := by
  induction ls with
  | nil => rfl
  | cons l rest ih =>
    have hl : ¬ 65 < l.length := by
      have := h l (List.mem_cons_self l rest)
      omega
    rw [DNSName.checkLabels, if_neg hl,
      ih fun x hx => h x (List.mem_cons_of_mem l hx)]

lemma checkLabels_err (ls : List (List Nat)) (h : ∃ l ∈ ls, 65 < l.length) :
    DNSName.checkLabels ls = .error .labelTooLong := by
  induction ls with
  | nil => obtain ⟨l, hl, _⟩ := h; cases hl
  | cons l rest ih =>
    by_cases hl : 65 < l.length
    · rw [DNSName.checkLabels, if_pos hl]
    · obtain ⟨x, hx, hxl⟩ := h
      rcases List.mem_cons.mp hx with hx | hx
      · exact absurd (hx ▸ hxl) hl
      · rw [DNSName.checkLabels, if_neg hl, ih ⟨x, hx, hxl⟩]

lemma from_name_eq (s : List Nat) (hne : s ≠ []) :
    DNSName.from_name s =
      DNSName.checkLabels (DNSName.splitOnDot (DNSName.withDot s)) := by
  obtain ⟨c, hc⟩ := Option.isSome_iff_exists.mp
    (List.getLast?_isSome.mpr hne)
  rw [DNSName.from_name, hc]
  dsimp only
  rw [DNSName.withDot, hc]
  by_cases h46 : c = 46
  · subst h46
    rw [if_neg (by simp), if_pos rfl]
  · rw [if_pos h46, if_neg (by simpa using h46)]

/-- C5 counterexample: a dotted name consisting of one 64-octet label does
not fail — `from_name` accepts it — although the label exceeds 63 octets, so
the claimed "fails iff some label exceeds 63 octets" is false. -/
theorem c5_counterexample :
    DNSName.from_name (List.replicate 64 97) =
      .ok [List.replicate 64 97, []] ∧
    63 < (List.replicate 64 97 : List Nat).length :=
  ⟨rfl, by simp⟩

/-- C5 (amended): for a nonempty dotted name, `DNSName.from_name` fails with
`LabelTooLong` if and only if some label of the (dot-terminated) input
exceeds 65 octets — the limit the code enforces is 65, not 63 — and every
name all of whose labels are at most 65 octets encodes successfully. -/
theorem c5_amended (s : List Nat) (hne : s ≠ []) :
    (DNSName.from_name s = .error .labelTooLong ↔
      ∃ l ∈ DNSName.splitOnDot (DNSName.withDot s), 65 < l.length) ∧
    ((∀ l ∈ DNSName.splitOnDot (DNSName.withDot s), l.length ≤ 65) →
      DNSName.from_name s = .ok (DNSName.splitOnDot (DNSName.withDot s))) := by
  rw [from_name_eq s hne]
  by_cases hex : ∃ l ∈ DNSName.splitOnDot (DNSName.withDot s), 65 < l.length
  · refine ⟨⟨fun _ => hex, fun _ => checkLabels_err _ hex⟩, fun hall => ?_⟩
    obtain ⟨x, hx, hxl⟩ := hex
    have := hall x hx
    omega
  · have hok := checkLabels_ok _ fun l hl =>
      le_of_not_lt fun hgt => hex ⟨l, hl, hgt⟩
    rw [hok]
    exact ⟨⟨fun h => absurd h (by simp), fun h => absurd h hex⟩, fun _ => rfl⟩

/-- C5 witness: the amended equivalence at the concrete one-label name "a". -/
theorem c5_amended_witness :
    ((DNSName.from_name [97] = .error .labelTooLong ↔
      ∃ l ∈ DNSName.splitOnDot (DNSName.withDot [97]), 65 < l.length) ∧
    ((∀ l ∈ DNSName.splitOnDot (DNSName.withDot [97]), l.length ≤ 65) →
      DNSName.from_name [97] =
        .ok (DNSName.splitOnDot (DNSName.withDot [97])))) :=
  c5_amended [97] (by decide)

/-! ### C8: resource records of unsupported types -/

/-- C8 counterexample: decoding a type-16 record with declared rdata length 3
succeeds, but its `r_data` stays the class default `None` — the three rdata
bytes `[1, 2, 3]` are not stored, contradicting "stored as an opaque byte
sequence of the declared length". -/
theorem c8_counterexample :
    DNSResource.from_pack [0, 0, 16, 0, 1, 0, 0, 0, 0, 0, 3, 1, 2, 3] 0 3 =
      .ok { a_name := { name_array := [[]], span := some 1 }, a_type := 16,
            a_class := 1, a_ttl := 0, r_d_length := 3, r_data := .none } ∧
    RData.none ≠ RData.bytes [1, 2, 3] :=
  ⟨rfl, by decide⟩

/-- C8 (amended): for every resource record whose type is not 1 (A), 2 (NS)
or 5 (CNAME), decode succeeds without error; the rdata bytes are NOT stored
(`r_data` keeps the class default `None`) though the declared rdata length is
recorded and counted in `get_size`, which advances the message cursor past
the rdata; rendering the record produces the unsupported-type message rather
than a failure. -/
theorem c8_amended (pack : List Nat) (index fuel sz : Nat)
    (arr : List (List Nat))
    (hname : DNSName.from_pack pack index fuel = .ok (sz, arr))
    (hlen : index + sz + 10 ≤ pack.length)
    (ht1 : read16 pack (index + sz) ≠ 1)
    (ht2 : read16 pack (index + sz) ≠ 2)
    (ht5 : read16 pack (index + sz) ≠ 5) :
    ∃ r, DNSResource.from_pack pack index fuel = .ok r ∧
      r.r_data = RData.none ∧
      r.a_type = read16 pack (index + sz) ∧
      r.r_d_length = read16 pack (index + sz + 8) ∧
      r.get_size = sz + 10 + read16 pack (index + sz + 8) ∧
      r.str_me =
        .ok ("Resource type >" ++ toString (read16 pack (index + sz)) ++
          "< not supported") := by
  refine ⟨{ a_name := { name_array := arr, span := some sz },
            a_type := read16 pack (index + sz),
            a_class := read16 pack (index + sz + 2),
            a_ttl := read32 pack (index + sz + 4),
            r_d_length := read16 pack (index + sz + 8),
            r_data := .none }, ?_, rfl, rfl, rfl, rfl, ?_⟩
  · rw [DNSResource.from_pack, hname]
    dsimp only
    rw [if_neg (by omega : ¬ pack.length < index + sz + 10), if_neg ht1,
      if_neg (by
        rintro (h | h)
        · exact ht2 h
        · exact ht5 h)]
  · rw [DNSResource.str_me]
    dsimp only
    rw [if_neg ht1, if_neg ht2, if_neg ht5]

/-- C8 witness: the amended statement at the concrete type-16 record. -/
theorem c8_amended_witness :
    ∃ r, DNSResource.from_pack [0, 0, 16, 0, 1, 0, 0, 0, 0, 0, 3, 1, 2, 3]
          0 3 = .ok r ∧
      r.r_data = RData.none ∧
      r.a_type = read16 [0, 0, 16, 0, 1, 0, 0, 0, 0, 0, 3, 1, 2, 3] (0 + 1) ∧
      r.r_d_length =
        read16 [0, 0, 16, 0, 1, 0, 0, 0, 0, 0, 3, 1, 2, 3] (0 + 1 + 8) ∧
      r.get_size =
        1 + 10 + read16 [0, 0, 16, 0, 1, 0, 0, 0, 0, 0, 3, 1, 2, 3] (0 + 1 + 8) ∧
      r.str_me =
        .ok ("Resource type >" ++
          toString (read16 [0, 0, 16, 0, 1, 0, 0, 0, 0, 0, 3, 1, 2, 3] (0 + 1))
          ++ "< not supported") :=
  c8_amended [0, 0, 16, 0, 1, 0, 0, 0, 0, 0, 3, 1, 2, 3] 0 3 1 [[]] rfl
    (by decide) (by decide) (by decide) (by decide)

/-! ### C9: header counts versus section-list lengths -/

lemma parseQLoop_length (pack : List Nat) (fuel : Nat) :
    ∀ (rem i loc loc2 : Nat) (qs qs2 : List DNSQuestion),
      DNSPacket.parseQLoop pack fuel rem i qs loc = .ok (qs2, loc2) →
      qs2.length = qs.length + rem := by
  intro rem
  induction rem with
  | zero =>
    intro i loc loc2 qs qs2 h
    rw [DNSPacket.parseQLoop] at h
    injection h with h
    injection h with h1 h2
    subst h1
    omega
  | succ rem ih =>
    intro i loc loc2 qs qs2 h
    rw [DNSPacket.parseQLoop] at h
    cases hq : DNSQuestion.from_pack pack loc fuel with
    | error e => rw [hq] at h; cases h
    | ok q =>
      rw [hq] at h
      dsimp only at h
      cases hi : (qs ++ [q])[i]? with
      | none => rw [hi] at h; cases h
      | some qi =>
        rw [hi] at h
        have := ih (i + 1) (loc + qi.get_size) loc2 (qs ++ [q]) qs2 h
        simp only [List.length_append, List.length_cons, List.length_nil] at this
        omega

lemma parseRLoop_length (pack : List Nat) (fuel : Nat) :
    ∀ (rem i loc loc2 : Nat) (rs rs2 : List DNSResource),
      DNSPacket.parseRLoop pack fuel rem i rs loc = .ok (rs2, loc2) →
      rs2.length = rs.length + rem := by
  intro rem
  induction rem with
  | zero =>
    intro i loc loc2 rs rs2 h
    rw [DNSPacket.parseRLoop] at h
    injection h with h
    injection h with h1 h2
    subst h1
    omega
  | succ rem ih =>
    intro i loc loc2 rs rs2 h
    rw [DNSPacket.parseRLoop] at h
    cases hr : DNSResource.from_pack pack loc fuel with
    | error e => rw [hr] at h; cases h
    | ok r =>
      rw [hr] at h
      dsimp only at h
      cases hi : (rs ++ [r])[i]? with
      | none => rw [hi] at h; cases h
      | some ri =>
        rw [hi] at h
        have := ih (i + 1) (loc + ri.get_size) loc2 (rs ++ [r]) rs2 h
        simp only [List.length_append, List.length_cons, List.length_nil] at this
        omega

/-- C9 counterexample: starting from a packet that satisfies the count
invariant but already holds one question (`qd_count = 1`,
`questions.length = 1`), `DNSPacket.from_pack` on a well-formed one-question
buffer appends to the existing list: the result declares `qd_count = 1` yet
its question list has length 2, so "after from_pack each section list
contains exactly the number of records its header count declares" fails. -/
theorem c9_counterexample :
    DNSPacket.from_pack mOneQ bufOneQ 5 =
      .ok { header := hdrOneQ, questions := [qFixA, qFixB], answers := [],
            authority := [], additional := [] } ∧
    ([qFixA, qFixB].length ≠ hdrOneQ.qd_count) :=
  ⟨rfl, by decide⟩

/-- C9 (amended): `add_q` appends exactly one question and increments
`qd_count` by exactly one, leaving the other three counts and section lists
unchanged; and after `from_pack` on a packet whose four section lists are
empty (`from_pack` appends to the lists it finds, so a fresh packet is
required), each section list contains exactly the number of records its
header count declares. -/
theorem c9_amended :
    (∀ (m : DNSPacket) (name : List Nat) (qt : Nat) (m2 : DNSPacket),
        DNSPacket.add_q m name qt = .ok m2 →
        (∃ q, m2.questions = m.questions ++ [q]) ∧
        m2.header.qd_count = m.header.qd_count + 1 ∧
        m2.answers = m.answers ∧ m2.authority = m.authority ∧
        m2.additional = m.additional ∧
        m2.header.an_count = m.header.an_count ∧
        m2.header.ns_count = m.header.ns_count ∧
        m2.header.ar_count = m.header.ar_count) ∧
    (∀ (m m2 : DNSPacket) (pack : List Nat) (fuel : Nat),
        m.questions = [] → m.answers = [] → m.authority = [] →
        m.additional = [] →
        DNSPacket.from_pack m pack fuel = .ok m2 →
        m2.questions.length = m2.header.qd_count ∧
        m2.answers.length = m2.header.an_count ∧
        m2.authority.length = m2.header.ns_count ∧
        m2.additional.length = m2.header.ar_count) := by
  constructor
  · intro m name qt m2 h
    rw [DNSPacket.add_q] at h
    cases hmk : DNSQuestion.mk_query name qt 1 with
    | error e => rw [hmk] at h; cases h
    | ok q =>
      rw [hmk] at h
      dsimp only at h
      injection h with h
      subst h
      exact ⟨⟨q, rfl⟩, rfl, rfl, rfl, rfl, rfl, rfl, rfl⟩
  · intro m m2 pack fuel hq0 ha0 hau0 had0 h
    rw [DNSPacket.from_pack, hq0, ha0, hau0, had0] at h
    cases hh : DNSHeader.set_from_pack pack with
    | error e => rw [hh] at h; cases h
    | ok hd =>
      rw [hh] at h
      dsimp only at h
      by_cases htc : hd.TC = true
      · rw [if_pos htc] at h; cases h
      · rw [if_neg htc] at h
        cases h1 : DNSPacket.parseQLoop pack fuel hd.qd_count 0 [] 12 with
        | error e => rw [h1] at h; cases h
        | ok p1 =>
          obtain ⟨qs2, loc1⟩ := p1
          rw [h1] at h
          dsimp only at h
          cases h2 : DNSPacket.parseRLoop pack fuel hd.an_count 0 [] loc1 with
          | error e => rw [h2] at h; cases h
          | ok p2 =>
            obtain ⟨ans2, loc2⟩ := p2
            rw [h2] at h
            dsimp only at h
            cases h3 :
                DNSPacket.parseRLoop pack fuel hd.ns_count 0 [] loc2 with
            | error e => rw [h3] at h; cases h
            | ok p3 =>
              obtain ⟨auth2, loc3⟩ := p3
              rw [h3] at h
              dsimp only at h
              cases h4 :
                  DNSPacket.parseRLoop pack fuel hd.ar_count 0 [] loc3 with
              | error e => rw [h4] at h; cases h
              | ok p4 =>
                obtain ⟨add2, loc4⟩ := p4
                rw [h4] at h
                dsimp only at h
                injection h with h
                subst h
                refine ⟨?_, ?_, ?_, ?_⟩
                · have := parseQLoop_length pack fuel hd.qd_count 0 12 loc1
                    [] qs2 h1
                  simpa using this
                · have := parseRLoop_length pack fuel hd.an_count 0 loc1 loc2
                    [] ans2 h2
                  simpa using this
                · have := parseRLoop_length pack fuel hd.ns_count 0 loc2 loc3
                    [] auth2 h3
                  simpa using this
                · have := parseRLoop_length pack fuel hd.ar_count 0 loc3 loc4
                    [] add2 h4
                  simpa using this

/-- C9 witness: both amended parts at concrete inputs — `add_q` on a fresh
packet, and `from_pack` of `bufOneQ` into a fresh packet. -/
theorem c9_amended_witness :
    ((∃ q, mAfterAdd.questions = (DNSPacket.fresh 9).questions ++ [q]) ∧
      mAfterAdd.header.qd_count = (DNSPacket.fresh 9).header.qd_count + 1 ∧
      mAfterAdd.answers = (DNSPacket.fresh 9).answers ∧
      mAfterAdd.authority = (DNSPacket.fresh 9).authority ∧
      mAfterAdd.additional = (DNSPacket.fresh 9).additional ∧
      mAfterAdd.header.an_count = (DNSPacket.fresh 9).header.an_count ∧
      mAfterAdd.header.ns_count = (DNSPacket.fresh 9).header.ns_count ∧
      mAfterAdd.header.ar_count = (DNSPacket.fresh 9).header.ar_count) ∧
    (mParsed.questions.length = mParsed.header.qd_count ∧
      mParsed.answers.length = mParsed.header.an_count ∧
      mParsed.authority.length = mParsed.header.ns_count ∧
      mParsed.additional.length = mParsed.header.ar_count) :=
  ⟨c9_amended.1 (DNSPacket.fresh 9) [97] 1 mAfterAdd rfl,
   c9_amended.2 (DNSPacket.fresh 9) mParsed bufOneQ 5 rfl rfl rfl rfl rfl⟩

/-! ### C2: the consumed-byte count reported by `from_pack` -/

lemma fromPackAux_ok_lt (pack : List Nat) (sloc fuel loc : Nat)
    (ps : Option Nat) (acc : List (List Nat)) (r : Nat × List (List Nat))
    (h : DNSName.fromPackAux pack sloc fuel loc ps acc = .ok r) :
    loc < pack.length := by
  cases fuel with
  | zero => cases h
  | succ fuel =>
    rw [DNSName.fromPackAux] at h
    cases hb : pack[loc]? with
    | none => rw [hb] at h; cases h
    | some b =>
      by_contra hge
      rw [List.getElem?_eq_none (by omega)] at hb
      cases hb

lemma fromPackAux_acc_prefix (pack : List Nat) (sloc : Nat) :
    ∀ (fuel loc : Nat) (ps : Option Nat) (acc labels : List (List Nat))
      (sz : Nat),
      DNSName.fromPackAux pack sloc fuel loc ps acc = .ok (sz, labels) →
      ∃ L, labels = acc ++ L := by
  intro fuel
  induction fuel with
  | zero => intro loc ps acc labels sz h; cases h
  | succ fuel ih =>
    intro loc ps acc labels sz h
    rw [DNSName.fromPackAux] at h
    cases hb : pack[loc]? with
    | none => rw [hb] at h; cases h
    | some b =>
      rw [hb] at h
      dsimp only at h
      by_cases hptr : b &&& 192 = 192
      · rw [if_pos hptr] at h
        cases hb2 : pack[loc + 1]? with
        | none => rw [hb2] at h; cases h
        | some b2 =>
          rw [hb2] at h
          dsimp only at h
          by_cases hlen : pack.length ≤ ((b <<< 8) ||| b2) &&& 16383
          · rw [if_pos hlen] at h; cases h
          · rw [if_neg hlen] at h
            by_cases hls : pack.getD (((b <<< 8) ||| b2) &&& 16383) 0 = 0
            · rw [if_pos hls] at h
              injection h with h
              injection h with h1 h2
              exact ⟨_, h2.symm⟩
            · rw [if_neg hls] at h
              obtain ⟨L, hL⟩ := ih _ _ _ _ _ h
              exact ⟨_, by rw [hL, List.append_assoc]⟩
      · rw [if_neg hptr] at h
        by_cases hz : b = 0
        · rw [if_pos hz] at h
          injection h with h
          injection h with h1 h2
          exact ⟨_, h2.symm⟩
        · rw [if_neg hz] at h
          obtain ⟨L, hL⟩ := ih _ _ _ _ _ h
          exact ⟨_, by rw [hL, List.append_assoc]⟩

lemma fromPackAux_ps_set (pack : List Nat) (sloc : Nat) :
    ∀ (fuel loc n : Nat) (acc labels : List (List Nat)) (sz : Nat),
      DNSName.fromPackAux pack sloc fuel loc (some (n + 1)) acc =
        .ok (sz, labels) →
      sz = n + 1 := by
  intro fuel
  induction fuel with
  | zero => intro loc n acc labels sz h; cases h
  | succ fuel ih =>
    intro loc n acc labels sz h
    rw [DNSName.fromPackAux] at h
    cases hb : pack[loc]? with
    | none => rw [hb] at h; cases h
    | some b =>
      rw [hb] at h
      dsimp only at h
      have hcond : ¬ (psFalsy (some (n + 1)) = true) := by
        rw [show psFalsy (some (n + 1)) = false from rfl]
        exact Bool.false_ne_true
      by_cases hptr : b &&& 192 = 192
      · rw [if_pos hptr, if_neg hcond] at h
        cases hb2 : pack[loc + 1]? with
        | none => rw [hb2] at h; cases h
        | some b2 =>
          rw [hb2] at h
          dsimp only at h
          by_cases hlen : pack.length ≤ ((b <<< 8) ||| b2) &&& 16383
          · rw [if_pos hlen] at h; cases h
          · rw [if_neg hlen] at h
            by_cases hls : pack.getD (((b <<< 8) ||| b2) &&& 16383) 0 = 0
            · rw [if_pos hls, if_neg hcond] at h
              simp only [Option.getD_some] at h
              injection h with h
              injection h with h1 h2
              omega
            · rw [if_neg hls] at h
              exact ih _ n _ _ _ h
      · rw [if_neg hptr] at h
        by_cases hz : b = 0
        · rw [if_pos hz, if_neg hcond] at h
          simp only [Option.getD_some] at h
          injection h with h
          injection h with h1 h2
          omega
        · rw [if_neg hz] at h
          exact ih _ n _ _ _ h

lemma fromPackAux_size_none (pack : List Nat) (sloc : Nat) :
    ∀ (fuel loc : Nat) (acc labels : List (List Nat)) (sz : Nat),
      sloc ≤ loc →
      DNSName.fromPackAux pack sloc fuel loc none acc = .ok (sz, labels) →
      (∀ p, DNSName.firstPtr pack fuel loc = some p → sz = p - sloc + 2) ∧
      (DNSName.firstPtr pack fuel loc = none →
        ∃ L, labels = acc ++ L ∧
          sz = (loc - sloc) + (L.map fun l => l.length + 1).sum) := by
  intro fuel
  induction fuel with
  | zero => intro loc acc labels sz hle h; cases h
  | succ fuel ih =>
    intro loc acc labels sz hle h
    rw [DNSName.fromPackAux] at h
    cases hb : pack[loc]? with
    | none => rw [hb] at h; cases h
    | some b =>
      rw [hb] at h
      dsimp only at h
      by_cases hptr : b &&& 192 = 192
      · -- the first pointer is met right here
        have hfp : DNSName.firstPtr pack (fuel + 1) loc = some loc := by
          rw [DNSName.firstPtr, hb]
          dsimp only
          rw [if_pos hptr]
        rw [if_pos hptr, if_pos (show psFalsy none = true from rfl)] at h
        cases hb2 : pack[loc + 1]? with
        | none => rw [hb2] at h; cases h
        | some b2 =>
          rw [hb2] at h
          dsimp only at h
          by_cases hlen : pack.length ≤ ((b <<< 8) ||| b2) &&& 16383
          · rw [if_pos hlen] at h; cases h
          · rw [if_neg hlen] at h
            have hps2 : ¬ (psFalsy (some (loc - sloc + 2)) = true) := by
              rw [show psFalsy (some (loc - sloc + 2)) = false from rfl]
              exact Bool.false_ne_true
            refine ⟨fun p hp => ?_, fun hn => ?_⟩
            · rw [hfp] at hp
              injection hp with hp
              subst hp
              by_cases hls : pack.getD (((b <<< 8) ||| b2) &&& 16383) 0 = 0
              · rw [if_pos hls, if_neg hps2] at h
                simp only [Option.getD_some] at h
                injection h with h
                injection h with h1 h2
                omega
              · rw [if_neg hls] at h
                have hsz :=
                  fromPackAux_ps_set pack sloc fuel _ (loc - sloc + 1) _ _ _ h
                omega
            · rw [hfp] at hn
              cases hn
      · rw [if_neg hptr] at h
        by_cases hz : b = 0
        · -- terminating zero label
          have hfp : DNSName.firstPtr pack (fuel + 1) loc = none := by
            rw [DNSName.firstPtr, hb]
            dsimp only
            rw [if_neg hptr, if_pos hz]
          subst hz
          rw [if_pos rfl, if_pos (show psFalsy none = true from rfl)] at h
          injection h with h
          injection h with h1 h2
          refine ⟨fun p hp => ?_, fun _ => ⟨[[]], ?_, ?_⟩⟩
          · rw [hfp] at hp
            cases hp
          · rw [← h2]
            simp [listSlice]
          · simp only [List.map_cons, List.map_nil, List.length_nil,
              List.sum_cons, List.sum_nil]
            omega
        · -- an ordinary label, keep walking
          have hfp : DNSName.firstPtr pack (fuel + 1) loc =
              DNSName.firstPtr pack fuel (loc + 1 + b) := by
            rw [DNSName.firstPtr, hb]
            dsimp only
            rw [if_neg hptr, if_neg hz]
          rw [if_neg hz] at h
          have hlt2 := fromPackAux_ok_lt pack sloc fuel (loc + 1 + b) _ _ _ h
          have hlab : (listSlice pack (loc + 1) b).length = b := by
            simp only [listSlice, List.length_take, List.length_drop]
            omega
          obtain ⟨ih1, ih2⟩ := ih (loc + 1 + b)
            (acc ++ [listSlice pack (loc + 1) b]) labels sz (by omega) h
          refine ⟨fun p hp => ?_, fun hn => ?_⟩
          · rw [hfp] at hp
            exact ih1 p hp
          · rw [hfp] at hn
            obtain ⟨L, hL, hsz⟩ := ih2 hn
            refine ⟨listSlice pack (loc + 1) b :: L, ?_, ?_⟩
            · rw [hL, List.append_assoc]
              rfl
            · simp only [List.map_cons, List.sum_cons, hlab]
              omega

/-- C2: whenever a name decodes successfully, the consumed-byte count it
reports is the distance from the starting offset through the 2 bytes of the
first compression pointer met on the walk when there is one, and otherwise
the sum, over all decoded labels (the terminating empty label included), of
one length byte plus the label bytes — so pointers after the first never
affect the count. -/
theorem c2_consumed_count (pack : List Nat) (sloc fuel sz : Nat)
    (labels : List (List Nat))
    (h : DNSName.from_pack pack sloc fuel = .ok (sz, labels)) :
    (∀ p, DNSName.firstPtr pack fuel sloc = some p → sz = p - sloc + 2) ∧
    (DNSName.firstPtr pack fuel sloc = none →
      sz = (labels.map fun l => l.length + 1).sum) := by
  obtain ⟨h1, h2⟩ :=
    fromPackAux_size_none pack sloc fuel sloc [] labels sz le_rfl h
  refine ⟨h1, fun hn => ?_⟩
  obtain ⟨L, hL, hsz⟩ := h2 hn
  simp only [List.nil_append] at hL
  subst hL
  omega

/-- C2 witness: a compressed name (pointer at offset 5 back to offset 0)
whose reported size is 2, the distance through the pointer bytes. -/
theorem c2_consumed_count_witness :
    (∀ p, DNSName.firstPtr [3, 97, 98, 99, 0, 192, 0] 9 5 = some p →
      2 = p - 5 + 2) ∧
    (DNSName.firstPtr [3, 97, 98, 99, 0, 192, 0] 9 5 = none →
      (2 : Nat) =
        (([[97, 98, 99], []] : List (List Nat)).map fun l => l.length + 1).sum) :=
  c2_consumed_count [3, 97, 98, 99, 0, 192, 0] 5 9 2 [[97, 98, 99], []] rfl

/-! ### C1: round-trip of a valid dotted name through the octet form -/

lemma splitOnDot_ne_nil (s : List Nat) : DNSName.splitOnDot s ≠ [] := by
  cases s with
  | nil => simp [DNSName.splitOnDot]
  | cons c rest =>
    rw [DNSName.splitOnDot]
    by_cases h : c = 46
    · rw [if_pos h]; simp
    · rw [if_neg h]
      cases hs : DNSName.splitOnDot rest <;> simp

lemma get_name_splitOnDot (s : List Nat) :
    DNSName.get_name (DNSName.splitOnDot s) = s := by
  induction s with
  | nil => rfl
  | cons c rest ih =>
    rw [DNSName.splitOnDot]
    by_cases h : c = 46
    · rw [if_pos h]
      subst h
      cases hs : DNSName.splitOnDot rest with
      | nil => exact absurd hs (splitOnDot_ne_nil rest)
      | cons l ls =>
        rw [hs] at ih
        rw [DNSName.get_name, ← ih]
        rfl
    · rw [if_neg h]
      cases hs : DNSName.splitOnDot rest with
      | nil => exact absurd hs (splitOnDot_ne_nil rest)
      | cons l ls =>
        rw [hs] at ih
        cases ls with
        | nil =>
          rw [DNSName.get_name]
          rw [DNSName.get_name] at ih
          rw [ih]
        | cons l2 ls2 =>
          rw [DNSName.get_name]
          rw [DNSName.get_name] at ih
          rw [← ih]
          rfl

lemma splitOnDot_append_dot (t : List Nat) :
    DNSName.splitOnDot (t ++ [46]) = DNSName.splitOnDot t ++ [[]] := by
  induction t with
  | nil => rfl
  | cons c rest ih =>
    rw [show (c :: rest) ++ [46] = c :: (rest ++ [46]) from rfl]
    by_cases h : c = 46
    · simp only [DNSName.splitOnDot, if_pos h, ih, List.cons_append]
    · simp only [DNSName.splitOnDot, if_neg h, ih]
      cases hs : DNSName.splitOnDot rest with
      | nil => exact absurd hs (splitOnDot_ne_nil rest)
      | cons l ls => simp

lemma labelWire_cons (l : List Nat) (L : List (List Nat)) :
    DNSName.labelWire (l :: L) = (l.length :: l) ++ DNSName.labelWire L := by
  simp [DNSName.labelWire]

lemma get_oct_name_concat_root (L : List (List Nat))
    (h : ∀ l ∈ L, l.length < 128) :
    DNSName.get_oct_name (L ++ [[]]) = DNSName.labelWire L := by
  induction L with
  | nil => rfl
  | cons l L ih =>
    have hl : DNSName.chrEncode l.length = [l.length] := by
      rw [DNSName.chrEncode, if_pos (h l (List.mem_cons_self l L))]
    have ih2 := ih fun x hx => h x (List.mem_cons_of_mem _ hx)
    rw [DNSName.get_oct_name] at ih2 ⊢
    simp only [List.cons_append, List.map_cons, List.flatten_cons]
    rw [ih2, hl, labelWire_cons]
    simp

lemma land192_of_le63 (n : Nat) (h : n ≤ 63) : n &&& 192 = 0 := by
  interval_cases n <;> rfl

lemma decode_labelWire :
    ∀ (L : List (List Nat)), (∀ l ∈ L, l.length ≤ 63) → (∀ l ∈ L, l ≠ []) →
    ∀ (pack : List Nat) (sloc loc fuel : Nat) (ps : Option Nat)
      (acc : List (List Nat)),
      pack.drop loc = DNSName.labelWire L →
      L.length + 1 ≤ fuel →
      DNSName.fromPackAux pack sloc fuel loc ps acc =
        .ok ((if psFalsy ps then loc + (DNSName.labelWire L).length - sloc
              else ps.getD 0), acc ++ (L ++ [[]])) := by
  intro L
  induction L with
  | nil =>
    intro _ _ pack sloc loc fuel ps acc hdrop hf
    cases fuel with
    | zero => omega
    | succ f =>
      have hb : pack[loc]? = some 0 := by
        have h0 := List.getElem?_drop pack loc 0
        rw [hdrop] at h0
        simpa using h0.symm
      rw [DNSName.fromPackAux, hb]
      dsimp only
      rw [if_neg (by decide : ¬ ((0 : Nat) &&& 192 = 192)), if_pos rfl]
      simp [listSlice, DNSName.labelWire]
  | cons l L ih =>
    intro hlen hne pack sloc loc fuel ps acc hdrop hf
    cases fuel with
    | zero =>
      simp only [List.length_cons] at hf
      omega
    | succ f =>
      have hl63 : l.length ≤ 63 := hlen l (List.mem_cons_self l L)
      have hlne : l ≠ [] := hne l (List.mem_cons_self l L)
      have hb : pack[loc]? = some l.length := by
        have h0 := List.getElem?_drop pack loc 0
        rw [hdrop, labelWire_cons] at h0
        simpa using h0.symm
      have hdrop1 : pack.drop (loc + 1) = l ++ DNSName.labelWire L := by
        have hd : pack.drop (loc + 1) = (pack.drop loc).drop 1 := by
          rw [List.drop_drop, Nat.add_comm]
        rw [hd, hdrop, labelWire_cons]
        rfl
      have hslice : listSlice pack (loc + 1) l.length = l := by
        rw [listSlice, hdrop1, List.take_left]
      have hdrop2 : pack.drop (loc + 1 + l.length) = DNSName.labelWire L := by
        have hd : pack.drop (loc + 1 + l.length) =
            (pack.drop (loc + 1)).drop l.length := by
          rw [List.drop_drop, Nat.add_comm]
        rw [hd, hdrop1, List.drop_left]
      rw [DNSName.fromPackAux, hb]
      dsimp only
      rw [if_neg (by rw [land192_of_le63 l.length hl63]; decide),
        if_neg (fun hl0 => hlne (List.length_eq_zero.mp hl0)), hslice,
        ih (fun x hx => hlen x (List.mem_cons_of_mem _ hx))
          (fun x hx => hne x (List.mem_cons_of_mem _ hx))
          pack sloc (loc + 1 + l.length) f ps (acc ++ [l]) hdrop2
          (by simp only [List.length_cons] at hf; omega)]
      have hlen2 : (DNSName.labelWire (l :: L)).length =
          1 + l.length + (DNSName.labelWire L).length := by
        rw [labelWire_cons]
        simp only [List.length_append, List.length_cons]
        omega
      refine congrArg Except.ok (Prod.ext ?_ ?_)
      · cases hps : psFalsy ps with
        | true =>
          rw [if_pos rfl, if_pos rfl]
          dsimp only
          rw [hlen2]
          omega
        | false =>
          rw [if_neg Bool.false_ne_true, if_neg Bool.false_ne_true]
      · simp

/-- C1: for every valid nonempty dotted name whose labels (the components of
the dot-terminated form, the final root label aside) are nonempty and at most
63 octets, `from_name` produces the label sequence, decoding the octet form
produced by `get_oct_name` at offset 0 returns exactly that label sequence
together with the full octet length, and the dotted textual form
(`get_name`, the trailing root dot included) is preserved. -/
theorem c1_roundtrip (s : List Nat) (hne : s ≠ [])
    (hlab : ∀ l ∈ (DNSName.splitOnDot (DNSName.withDot s)).dropLast,
      l.length ≤ 63 ∧ l ≠ []) :
    DNSName.from_name s = .ok (DNSName.splitOnDot (DNSName.withDot s)) ∧
    DNSName.from_pack
        (DNSName.get_oct_name (DNSName.splitOnDot (DNSName.withDot s))) 0
        (DNSName.splitOnDot (DNSName.withDot s)).length =
      .ok
        ((DNSName.get_oct_name
            (DNSName.splitOnDot (DNSName.withDot s))).length,
          DNSName.splitOnDot (DNSName.withDot s)) ∧
    DNSName.get_name (DNSName.splitOnDot (DNSName.withDot s)) =
      DNSName.withDot s := by
  obtain ⟨t, ht⟩ : ∃ t, DNSName.withDot s = t ++ [46] := by
    by_cases h : s.getLast? = some 46
    · exact ⟨s.dropLast, by
        rw [DNSName.withDot, if_pos h]
        exact (List.dropLast_append_getLast? 46 (Option.mem_def.mpr h)).symm⟩
    · exact ⟨s, by rw [DNSName.withDot, if_neg h]⟩
  have hsplit : DNSName.splitOnDot (DNSName.withDot s) =
      DNSName.splitOnDot t ++ [[]] := by
    rw [ht, splitOnDot_append_dot]
  have hdl : (DNSName.splitOnDot (DNSName.withDot s)).dropLast =
      DNSName.splitOnDot t := by
    rw [hsplit]
    simp
  rw [hdl] at hlab
  have hwire : DNSName.get_oct_name (DNSName.splitOnDot (DNSName.withDot s)) =
      DNSName.labelWire (DNSName.splitOnDot t) := by
    rw [hsplit]
    exact get_oct_name_concat_root _ fun l hl => by
      have := (hlab l hl).1
      omega
  refine ⟨?_, ?_, ?_⟩
  · rw [from_name_eq s hne]
    apply checkLabels_ok
    intro l hl
    rw [hsplit] at hl
    rcases List.mem_append.mp hl with hl | hl
    · have := (hlab l hl).1
      omega
    · simp only [List.mem_singleton] at hl
      subst hl
      simp
  · have hdec := decode_labelWire (DNSName.splitOnDot t)
      (fun l hl => (hlab l hl).1) (fun l hl => (hlab l hl).2)
      (DNSName.labelWire (DNSName.splitOnDot t)) 0 0
      (DNSName.splitOnDot (DNSName.withDot s)).length none []
      (by rw [List.drop_zero]) (by rw [hsplit]; simp)
    rw [hwire, DNSName.from_pack, hdec, hsplit]
    simp [psFalsy]
  · rw [get_name_splitOnDot]

/-- C1 witness: the round-trip at the concrete dotted name "ab.c". -/
theorem c1_roundtrip_witness :
    DNSName.from_name [97, 98, 46, 99] =
      .ok (DNSName.splitOnDot (DNSName.withDot [97, 98, 46, 99])) ∧
    DNSName.from_pack
        (DNSName.get_oct_name
          (DNSName.splitOnDot (DNSName.withDot [97, 98, 46, 99]))) 0
        (DNSName.splitOnDot (DNSName.withDot [97, 98, 46, 99])).length =
      .ok
        ((DNSName.get_oct_name
            (DNSName.splitOnDot (DNSName.withDot [97, 98, 46, 99]))).length,
          DNSName.splitOnDot (DNSName.withDot [97, 98, 46, 99])) ∧
    DNSName.get_name
        (DNSName.splitOnDot (DNSName.withDot [97, 98, 46, 99])) =
      DNSName.withDot [97, 98, 46, 99] :=
  c1_roundtrip [97, 98, 46, 99] (by decide) (by decide)
